import Mathlib

/-!
Verification of the request/response transformation pipeline of
`cloudflare-cors-anywhere-re` (the module worker in the repository's main
source file).  The JavaScript source is shallowly embedded: strings are
`String`, JavaScript 32-bit integer operations are `Int` with explicit
wrapping, header bags are association lists, and the handler's control flow
up to (and after) the single outbound `fetch` is a pure function on a
request model.  Platform primitives used by the source
(`decodeURIComponent`, `URLSearchParams`, `new URL`, `JSON.parse`,
`Headers`) are modelled explicitly; each model's doc comment states the
fragment of the platform behaviour it captures.
-/

namespace CorsRe

/-! ## ASCII case folding

The source relies on case-insensitive regexes (`/.../i`), on
`String.prototype.toLowerCase`, and on the `Headers` API lowercasing header
names.  All strings involved are ASCII, so we model case folding as ASCII
lowercasing. -/

/-- ASCII lowercase of one character (identity outside `A`–`Z`). -/
def lowerChar (c : Char) : Char :=
  if 65 <= c.toNat && c.toNat <= 90 then Char.ofNat (c.toNat + 32) else c

/-- ASCII lowercase of a string (models `toLowerCase` on ASCII data). -/
def lowerStr (s : String) : String := ⟨s.data.map lowerChar⟩

/-- Case-sensitive "starts with" (JavaScript `/^pat/` on a literal). -/
def isPrefixCS (p s : String) : Bool := p.data.isPrefixOf s.data

/-- Case-insensitive "starts with": `p` must be given in lowercase; models a
JavaScript `/^pat/i` test for a literal pattern `pat`. -/
def isPrefixCI (p s : String) : Bool := p.data.isPrefixOf (s.data.map lowerChar)

/-- JavaScript `String.prototype.includes` (substring test). -/
def strIncludes (hay needle : String) : Bool :=
  hay.data.tails.any (fun t => needle.data.isPrefixOf t)

/-- The test `targetUrl.match(/^https?:\/\//i) !== null` from the source:
the string starts with `http://` or `https://`, case-insensitively. -/
def startsWithHttpScheme (s : String) : Bool :=
  isPrefixCI "http://" s || isPrefixCI "https://" s

/-- JavaScript truthiness of a nullable string: `null` and `""` are falsy,
every other string is truthy. -/
def jsTruthyOpt : Option String → Bool
  | none => false
  | some s => s != ""

/-! ## `decodeURIComponent`

Model of the platform's `decodeURIComponent`: fails (`none`, for the thrown
`URIError`) whenever a `%` is not followed by two hex digits; otherwise
replaces each `%XX` escape by the character with code `XX`.  The model
treats each decoded byte as one character, which is exact for ASCII data
(the platform additionally validates multi-byte UTF-8 sequences; no claim
is settled on a non-ASCII escape). -/

/-- Value of one hex digit, if any. -/
def hexDigitVal (c : Char) : Option Nat :=
  if '0' ≤ c && c ≤ '9' then some (c.toNat - 48)
  else if 'a' ≤ c && c ≤ 'f' then some (c.toNat - 87)
  else if 'A' ≤ c && c ≤ 'F' then some (c.toNat - 55)
  else none

/-- Strict percent-decoding on character lists; `none` models a thrown
`URIError`. -/
def percentDecodeStrict : List Char → Option (List Char)
  | [] => some []
  | '%' :: a :: b :: rest =>
    match hexDigitVal a, hexDigitVal b, percentDecodeStrict rest with
    | some ha, some hb, some tail => some (Char.ofNat (16 * ha + hb) :: tail)
    | _, _, _ => none
  | '%' :: _ => none
  | c :: rest => (percentDecodeStrict rest).map (c :: ·)

/-- Model of `decodeURIComponent` (see `percentDecodeStrict`). -/
def decodeURIComponentM (s : String) : Option String :=
  (percentDecodeStrict s.data).map (fun l => ⟨l⟩)

/-! ## `URLSearchParams`

Model of WHATWG `application/x-www-form-urlencoded` parsing as used by
`originUrl.searchParams`: split on `&`, skip empty segments, split each
segment at its first `=`, then decode `+` as space and `%XX` escapes
leniently (malformed escapes are kept verbatim; decoded bytes are taken as
characters, exact on ASCII data). -/

/-- Lenient form-urlencoded decoding of one token. -/
def formDecodeList : List Char → List Char
  | [] => []
  | '+' :: rest => ' ' :: formDecodeList rest
  | '%' :: a :: b :: rest =>
    match hexDigitVal a, hexDigitVal b with
    | some ha, some hb => Char.ofNat (16 * ha + hb) :: formDecodeList rest
    | _, _ => '%' :: formDecodeList (a :: b :: rest)
  | c :: rest => c :: formDecodeList rest

/-- Split a character list on a separator character. -/
def splitOnChar (sep : Char) (l : List Char) : List (List Char) :=
  match l with
  | [] => [[]]
  | c :: rest =>
    let r := splitOnChar sep rest
    if c == sep then [] :: r
    else match r with
      | [] => [[c]]
      | h :: t => (c :: h) :: t

/-- Split at the first occurrence of `sep`: returns the part before it and,
when `sep` occurs, the part after it. -/
def splitAtFirstChar (sep : Char) (l : List Char) : List Char × Option (List Char) :=
  let pre := l.takeWhile (fun c => c != sep)
  if pre.length = l.length then (pre, none) else (pre, some (l.drop (pre.length + 1)))

/-- Parse a form-urlencoded query body into decoded (name, value) pairs in
order, duplicates preserved. -/
def parseForm (s : String) : List (String × String) :=
  (splitOnChar '&' s.data).filterMap (fun seg =>
    if seg.isEmpty then none
    else
      let (k, v) := splitAtFirstChar '=' seg
      some ((⟨formDecodeList k⟩ : String), (⟨formDecodeList (v.getD [])⟩ : String)))

/-- `URLSearchParams.get`: the first value listed under a name, if any. -/
def lookupFirst (ps : List (String × String)) (k : String) : Option String :=
  (ps.find? (fun p => p.1 == k)).map (·.2)

/-! ## `new URL`

Model of the WHATWG URL parser (`new URL(s)` with no base) on the fragment
the pipeline exercises.  A URL with a special scheme (`http`, `https`,
`ws`, `wss`, `ftp`) must have `//`, an authority with a non-empty host
(lowercased; a host containing a forbidden code point such as a space or a
`%` is rejected), an optional all-digit port (dropped when empty), and then
path, query and fragment split at `?` and `#`.  Other schemes keep the
remainder verbatim.  Not modelled (and not exercised by any claim):
dot-segment normalization, percent-encoding during serialization,
default-port dropping, IDNA/IPv6 hosts, and the lenient special-scheme
forms without `//`. -/

/-- A character that may appear in a URL scheme after the first. -/
def isSchemeChar (c : Char) : Bool :=
  c.isAlphanum || c == '+' || c == '-' || c == '.'

/-- A scheme: non-empty, first character a letter, rest scheme characters. -/
def validScheme : List Char → Bool
  | [] => false
  | c :: rest => c.isAlpha && rest.all isSchemeChar

/-- Code points rejected inside a host. -/
def isForbiddenHostChar (c : Char) : Bool :=
  c == ' ' || c == '\t' || c == '\n' || c == '\r' || c == '#' || c == '/' ||
  c == ':' || c == '?' || c == '@' || c == '[' || c == '\\' || c == ']' ||
  c == '^' || c == '|' || c == '<' || c == '>' || c == '%'

/-- The special schemes whose URLs carry an authority. -/
def specialSchemes : List String := ["http", "https", "ws", "wss", "ftp"]

/-- Parsed URL: either a special-scheme URL with authority, or an opaque
non-special URL. -/
inductive UrlM where
  | special (scheme : String) (userinfo : Option String) (host : String)
      (port : String) (path : String) (query : Option String)
      (fragment : Option String)
  | nonSpecial (scheme : String) (rest : String)
deriving DecidableEq, Repr

/-- Split at the last occurrence of `sep` (used for the userinfo `@`). -/
def splitAtLastChar (sep : Char) (l : List Char) : Option (List Char) × List Char :=
  match splitAtFirstChar sep l.reverse with
  | (_, none) => (none, l)
  | (revTail, some revInit) => (some revInit.reverse, revTail.reverse)

/-- Parse authority, path, query and fragment of a special-scheme URL from
the characters following `scheme://`. -/
def parseAuthorityEtc (r : List Char) :
    Option (Option String × String × String × String × Option String × Option String) :=
  let auth := r.takeWhile (fun c => c != '/' && c != '?' && c != '#')
  let after := r.drop auth.length
  let (uiRaw, hostport) := splitAtLastChar '@' auth
  let (hostRaw, portRaw) := splitAtFirstChar ':' hostport
  if hostRaw.isEmpty then none
  else if hostRaw.any isForbiddenHostChar then none
  else
    let portOk : Option String :=
      match portRaw with
      | none => some ""
      | some p => if p.all (fun c => c.isDigit) then some ⟨p⟩ else none
    match portOk with
    | none => none
    | some port =>
      let ui : Option String :=
        match uiRaw with
        | none => none
        | some [] => none
        | some l => some ⟨l⟩
      let (beforeHash, frag) := splitAtFirstChar '#' after
      let (path, q) := splitAtFirstChar '?' beforeHash
      some (ui, (⟨hostRaw.map lowerChar⟩ : String), port, (⟨path⟩ : String),
        q.map (fun l => (⟨l⟩ : String)), frag.map (fun l => (⟨l⟩ : String)))

/-- `new URL(s)` on a character list; `none` models a thrown `TypeError`. -/
def parseUrlList (cs : List Char) : Option UrlM :=
  let sch := cs.takeWhile (fun c => c != ':')
  if sch.length = cs.length then none
  else if !(validScheme sch) then none
  else
    let schemeL : String := ⟨sch.map lowerChar⟩
    let rest := cs.drop (sch.length + 1)
    if specialSchemes.contains schemeL then
      match rest with
      | '/' :: '/' :: r =>
        (parseAuthorityEtc r).map (fun x =>
          UrlM.special schemeL x.1 x.2.1 x.2.2.1 x.2.2.2.1 x.2.2.2.2.1 x.2.2.2.2.2)
      | _ => none
    else some (.nonSpecial schemeL ⟨rest⟩)

/-- `new URL(s)` (see `parseUrlList`). -/
def parseUrl (s : String) : Option UrlM := parseUrlList s.data

/-- The serialized form `url.href`. -/
def UrlM.href : UrlM → String
  | .special sch ui host port path q f =>
    sch ++ "://" ++ (match ui with | some u => u ++ "@" | none => "") ++ host ++
      (if port = "" then "" else ":" ++ port) ++
      (if path = "" then "/" else path) ++
      (match q with | some qs => "?" ++ qs | none => "") ++
      (match f with | some fs => "#" ++ fs | none => "")
  | .nonSpecial sch rest => sch ++ ":" ++ rest

/-- The query component of a parsed URL (as raw text, without `?`). -/
def UrlM.searchText : UrlM → Option String
  | .special _ _ _ _ _ q _ => q
  | .nonSpecial _ rest =>
    let (beforeHash, _) := splitAtFirstChar '#' rest.data
    (splitAtFirstChar '?' beforeHash).2.map (fun l => (⟨l⟩ : String))

/-- `url.searchParams.get(k)` for a parsed URL. -/
def urlSearchParamFirst (u : UrlM) (k : String) : Option String :=
  lookupFirst (parseForm ((u.searchText).getD "")) k

/-! ## Target Resolver

Embedding of the target-URL extraction and normalization block of the
handler (`let targetUrl = originUrl.searchParams.get("url"); ...` through
the `new URL` validation). -/

/-- `search.substring(1)` when `search.startsWith("?")`, else `none`. -/
def searchBody (search : String) : Option String :=
  match search.data with
  | '?' :: rest => some ⟨rest⟩
  | _ => none

/-- The string `URLSearchParams` is initialized from: the search component
with a single leading `?` stripped. -/
def stripQm (search : String) : String :=
  match search.data with
  | '?' :: rest => ⟨rest⟩
  | _ => search

/-- The regexes `/^https?%3A%2F%2F/i` and `/^https?:\/\//i` tested by the
decode-failure fallback of the source. -/
def looksUrlish (ss : String) : Bool :=
  isPrefixCI "http%3a%2f%2f" ss || isPrefixCI "https%3a%2f%2f" ss ||
    startsWithHttpScheme ss

/-- The `try { decoded = decodeURIComponent(searchString); ... } catch ...`
block: decode once; if the result still contains `%`, decode again; on any
failure re-examine the raw string and, when it looks like a (possibly
encoded) URL, retry a single decode, else keep the raw string. -/
def progressiveDecode (ss : String) : String :=
  let catchBranch : String :=
    if looksUrlish ss then
      match decodeURIComponentM ss with
      | some d => d
      | none => ss
    else ss
  match decodeURIComponentM ss with
  | some d1 =>
    if d1.data.contains '%' then
      match decodeURIComponentM d1 with
      | some d2 => d2
      | none => catchBranch
    else d1
  | none => catchBranch

/-- The reconstruction loop over `paramKeys` (lines building `reconstructed`
from the parsed parameter keys, each followed by `=value` when
`searchParams.get(key)` is non-empty, separated by `/` only when the
accumulator is non-empty — JavaScript truthiness of `reconstructed`). -/
def reconstructFromKeys (pairs : List (String × String)) (keys : List String) : String :=
  keys.foldl (fun acc k =>
    let acc := if acc = "" then acc else acc ++ "/"
    let acc := acc ++ k
    match lookupFirst pairs k with
    | some v => if v ≠ "" then acc ++ "=" ++ v else acc
    | none => acc) ""

/-- Extraction of the raw target candidate from the search component
(`?url=...` parameter, else the legacy raw-suffix format with the
reconstruction heuristic and progressive decoding).  `none` models the
JavaScript variable `targetUrl` remaining `null`; the candidate `""`
(possible only from `?url=`) is also represented by the variable's falsy
value `some ""`. -/
def extractTargetCandidate (search : String) : Option String :=
  let pairs := parseForm (stripQm search)
  let urlParam := lookupFirst pairs "url"
  if jsTruthyOpt urlParam then urlParam
  else
    match searchBody search with
    | some ss =>
      if ss != "" then
        let keys := pairs.map (·.1)
        let reconstructed := reconstructFromKeys pairs keys
        if (decide (keys.length > 1) ||
            (keys.length == 1 && !(ss.data.contains '='))) &&
            startsWithHttpScheme reconstructed then
          some reconstructed
        else some (progressiveDecode ss)
      else urlParam
    | none => urlParam

/-- Validation and normalization of a truthy candidate (`if
(!targetUrl.match(/^https?:\/\//i)) targetUrl = "https://" + targetUrl`
followed by `new URL(targetUrl).href`, `null` on a parse failure). -/
def normalizeTargetUrl (t : String) : Option String :=
  let t1 := if startsWithHttpScheme t then t else "https://" ++ t
  (parseUrl t1).map UrlM.href

/-- The resolved `TargetUrl` for a request's search component.  A falsy
candidate (`null` or `""`) skips validation and behaves as `null`
downstream (`if (targetUrl)` / `else if (!targetUrl)`), so it is collapsed
to `none`. -/
def resolveTarget (search : String) : Option String :=
  match extractTargetCandidate search with
  | some t => if t = "" then none else normalizeTargetUrl t
  | none => none

/-! ## Header bags

Two kinds of header containers appear in the source: `Headers` objects
(name lookup and storage are case-insensitive; we store names lowercased)
and plain JavaScript objects used for `filteredHeaders` (names are
case-sensitive keys).  Both replace in place on re-assignment and append
otherwise. -/

/-- Read the value stored under exact key `k` in an association list. -/
def getAssoc (m : List (String × String)) (k : String) : Option String :=
  (m.find? (fun p => p.1 == k)).map (·.2)

/-- Store `v` under exact key `k`: replace in place when the key exists,
append otherwise (the update discipline of both `Headers.set` and plain
object assignment). -/
def setAssoc (m : List (String × String)) (k v : String) : List (String × String) :=
  if m.any (fun p => p.1 == k) then
    m.map (fun p => if p.1 == k then (k, v) else p)
  else m ++ [(k, v)]

/-- A `Headers` object: association list with lowercased names. -/
abbrev HeaderMap := List (String × String)

/-- `headers.get(k)` (case-insensitive). -/
def hget (h : HeaderMap) (k : String) : Option String :=
  getAssoc h (lowerStr k)

/-- `headers.set(k, v)` (case-insensitive; replaces in place or appends). -/
def hset (h : HeaderMap) (k v : String) : HeaderMap :=
  setAssoc h (lowerStr k) v

/-- `headers.delete(k)` (case-insensitive). -/
def hdelete (h : HeaderMap) (k : String) : HeaderMap :=
  h.filter (fun p => !(p.1 == lowerStr k))

/-- A plain JavaScript object used as a header bag (case-sensitive keys). -/
abbrev JsObj := List (String × String)

/-- Property read `m[k]` on a plain object. -/
def jsGet (m : JsObj) (k : String) : Option String := getAssoc m k

/-- Property write `m[k] = v` on a plain object. -/
def jsSet (m : JsObj) (k v : String) : JsObj := setAssoc m k v

/-- `Object.assign(m, src)`: assign every entry of `src` onto `m`. -/
def jsAssign (m : JsObj) (src : List (String × String)) : JsObj :=
  src.foldl (fun acc p => jsSet acc p.1 p.2) m

/-- The value an `Object.assign`-style overlay leaves under a key: the
value of the key's last occurrence in the overlay list, if any. -/
def lookupLast (l : List (String × String)) (k : String) : Option String :=
  getAssoc l.reverse k

/-! ## Request model -/

/-- An inbound request: method, search component of the worker URL, and the
`Headers` object (names lowercased, as the platform normalizes them). -/
structure RequestModel where
  method : String
  search : String
  headers : HeaderMap
deriving DecidableEq, Repr

/-- `request.headers.get(k)`. -/
def reqGet (r : RequestModel) (k : String) : Option String := hget r.headers k

/-- `const isPreflightRequest = request.method === "OPTIONS"`. -/
def isPreflightReq (r : RequestModel) : Bool := r.method == "OPTIONS"

/-- `request.headers.entries()`: names are produced lowercased. -/
def headersEntries (h : HeaderMap) : List (String × String) :=
  h.map (fun p => (lowerStr p.1, p.2))

/-! ## Admission Filter -/

/-- A configured regex pattern, modelled by its match predicate:
`matcher u = true` exactly when `u.match(pattern) !== null` (a substring
regex search). -/
abbrev RegexMatcher := String → Bool

/-- `blacklistUrls` / `whitelistOrigins` pattern lists. -/
structure Config where
  blacklistUrls : List RegexMatcher
  whitelistOrigins : List RegexMatcher

/-- The regex `".*"`: a substring search with it succeeds on every string. -/
def dotStarMatcher : RegexMatcher := fun _ => true

/-- The default configuration `{ blacklistUrls: [], whitelistOrigins: [".*"] }`. -/
def defaultConfig : Config := ⟨[], [dotStarMatcher]⟩

/-- `isListedInWhitelist(uri, listing)` from the source: a string matches
when some pattern matches it; a non-string (`null`) is accepted. -/
def isListedInWhitelist (uri : Option String) (listing : List RegexMatcher) : Bool :=
  match uri with
  | some u => listing.any (fun p => p u)
  | none => true

/-- The admission gate `targetUrl && !isListedInWhitelist(targetUrl,
config.blacklistUrls) && isListedInWhitelist(originHeader,
config.whitelistOrigins)` (used identically for preflight and main
requests). -/
def admission (targetUrl originHeader : Option String) (cfg : Config) : Bool :=
  jsTruthyOpt targetUrl && !(isListedInWhitelist targetUrl cfg.blacklistUrls) &&
    isListedInWhitelist originHeader cfg.whitelistOrigins

/-! ## CORS header computation -/

/-- The `if (isPreflightRequest)` block of the `setupCORSHeaders` closure:
sets the allow-methods and allow-headers responses (echoing the
`Access-Control-Request-*` headers when truthy, else fixed defaults) and
removes `X-Content-Type-Options`. -/
def preflightExtra (req : RequestModel) (h1 : HeaderMap) : HeaderMap :=
  let rm := reqGet req "access-control-request-method"
  let allowedMethods :=
    if jsTruthyOpt rm then rm.getD ""
    else "GET, POST, PUT, DELETE, PATCH, HEAD, OPTIONS"
  let h2 := hset h1 "Access-Control-Allow-Methods" allowedMethods
  let rh := reqGet req "access-control-request-headers"
  let h3 :=
    if jsTruthyOpt rh then hset h2 "Access-Control-Allow-Headers" (rh.getD "")
    else hset h2 "Access-Control-Allow-Headers"
      "Content-Type, Authorization, X-Requested-With, Accept, Origin"
  hdelete h3 "X-Content-Type-Options"

/-- The `setupCORSHeaders` closure: sets `Access-Control-Allow-Origin` to
the request's truthy `Origin` (with `Access-Control-Allow-Credentials:
true`) or to `*`; on a preflight additionally applies `preflightExtra`. -/
def setupCORSHeaders (req : RequestModel) (h0 : HeaderMap) : HeaderMap :=
  let origin := reqGet req "Origin"
  let h1 :=
    if jsTruthyOpt origin then
      hset (hset h0 "Access-Control-Allow-Origin" (origin.getD ""))
        "Access-Control-Allow-Credentials" "true"
    else hset h0 "Access-Control-Allow-Origin" "*"
  if isPreflightReq req then preflightExtra req h1 else h1

/-! ## Fingerprint Selector -/

/-- `ToInt32`: wrap an integer to the signed 32-bit range. -/
def toInt32 (n : Int) : Int :=
  if n % 4294967296 < 2147483648 then n % 4294967296 else n % 4294967296 - 4294967296

/-- The hash accumulator of
`targetUrl.split("").reduce((hash, char) => (hash << 5) - hash +
char.charCodeAt(0), 0)`.  Only the shift wraps to 32 bits (`hash << 5`
coerces through `ToInt32`); the subtraction and addition are exact, and the
final value is not re-wrapped.  `charCodeAt` is the UTF-16 code unit,
`c.toNat` for the BMP characters that occur in URLs. -/
def jsHashAcc (t : String) : Int :=
  t.data.foldl (fun h c => toInt32 (h * 32) - h + c.toNat) 0

/-- `Math.abs(hash) % browserFingerprints.length` with 4 profiles. -/
def fingerprintIndex (t : String) : Nat := (jsHashAcc t).natAbs % 4

/-- The four browser fingerprint profiles (Chrome/Windows, Chrome/macOS,
Firefox/Windows, Safari/macOS), with the per-request `Referer` and
`Sec-Fetch-Site` values filled in. -/
def browserFingerprints (referer secFetchSite : String) : List JsObj :=
  [ [("User-Agent",
      "Mozilla/5.0 (Windows NT 10.0; Win64; x64) AppleWebKit/537.36 (KHTML, like Gecko) Chrome/120.0.0.0 Safari/537.36"),
     ("Accept",
      "text/html,application/xhtml+xml,application/xml;q=0.9,image/avif,image/webp,image/apng,*/*;q=0.8,application/signed-exchange;v=b3;q=0.7"),
     ("Accept-Language", "en-US,en;q=0.9"),
     ("Accept-Encoding", "gzip, deflate, br"),
     ("Referer", referer),
     ("Sec-Ch-Ua", "\"Not_A Brand\";v=\"8\", \"Chromium\";v=\"120\", \"Google Chrome\";v=\"120\""),
     ("Sec-Ch-Ua-Mobile", "?0"),
     ("Sec-Ch-Ua-Platform", "\"Windows\""),
     ("Sec-Ch-Ua-Platform-Version", "\"15.0.0\""),
     ("Sec-Fetch-Dest", "document"),
     ("Sec-Fetch-Mode", "navigate"),
     ("Sec-Fetch-Site", secFetchSite),
     ("Sec-Fetch-User", "?1"),
     ("Upgrade-Insecure-Requests", "1"),
     ("Cache-Control", "max-age=0")],
    [("User-Agent",
      "Mozilla/5.0 (Macintosh; Intel Mac OS X 10_15_7) AppleWebKit/537.36 (KHTML, like Gecko) Chrome/120.0.0.0 Safari/537.36"),
     ("Accept",
      "text/html,application/xhtml+xml,application/xml;q=0.9,image/avif,image/webp,image/apng,*/*;q=0.8,application/signed-exchange;v=b3;q=0.7"),
     ("Accept-Language", "en-US,en;q=0.9"),
     ("Accept-Encoding", "gzip, deflate, br"),
     ("Referer", referer),
     ("Sec-Ch-Ua", "\"Not_A Brand\";v=\"8\", \"Chromium\";v=\"120\", \"Google Chrome\";v=\"120\""),
     ("Sec-Ch-Ua-Mobile", "?0"),
     ("Sec-Ch-Ua-Platform", "\"macOS\""),
     ("Sec-Ch-Ua-Platform-Version", "\"15.0.0\""),
     ("Sec-Fetch-Dest", "document"),
     ("Sec-Fetch-Mode", "navigate"),
     ("Sec-Fetch-Site", secFetchSite),
     ("Sec-Fetch-User", "?1"),
     ("Upgrade-Insecure-Requests", "1"),
     ("Cache-Control", "max-age=0")],
    [("User-Agent",
      "Mozilla/5.0 (Windows NT 10.0; Win64; x64; rv:121.0) Gecko/20100101 Firefox/121.0"),
     ("Accept",
      "text/html,application/xhtml+xml,application/xml;q=0.9,image/avif,image/webp,*/*;q=0.8"),
     ("Accept-Language", "en-US,en;q=0.5"),
     ("Accept-Encoding", "gzip, deflate, br"),
     ("Referer", referer),
     ("DNT", "1"),
     ("Connection", "keep-alive"),
     ("Upgrade-Insecure-Requests", "1"),
     ("Sec-Fetch-Dest", "document"),
     ("Sec-Fetch-Mode", "navigate"),
     ("Sec-Fetch-Site", secFetchSite),
     ("Sec-Fetch-User", "?1"),
     ("Cache-Control", "max-age=0")],
    [("User-Agent",
      "Mozilla/5.0 (Macintosh; Intel Mac OS X 10_15_7) AppleWebKit/605.1.15 (KHTML, like Gecko) Version/17.1 Safari/605.1.15"),
     ("Accept", "text/html,application/xhtml+xml,application/xml;q=0.9,*/*;q=0.8"),
     ("Accept-Language", "en-US,en;q=0.9"),
     ("Accept-Encoding", "gzip, deflate, br"),
     ("Referer", referer),
     ("DNT", "1"),
     ("Connection", "keep-alive"),
     ("Upgrade-Insecure-Requests", "1"),
     ("Sec-Fetch-Dest", "document"),
     ("Sec-Fetch-Mode", "navigate"),
     ("Sec-Fetch-Site", secFetchSite),
     ("Sec-Fetch-User", "?1"),
     ("Cache-Control", "max-age=0")] ]

/-! ## Header Composer (outbound) -/

/-- The state of the `customHeaders` variable after
`JSON.parse(request.headers.get("x-cors-headers"))` inside `try/catch`,
modelling the platform's `JSON.parse`: the header may be absent
(`customHeaders === null`); present but not valid JSON (the variable keeps
the raw string, which is not an object); valid JSON but not an object
(number, boolean, string or `null` — skipped by the
`typeof customHeaders === "object"` / `!== null` guard); or a JSON object,
whose string-valued entries are recorded in order. -/
inductive CustomHeadersState where
  | absent
  | invalid (raw : String)
  | scalar
  | objectOf (entries : List (String × String))
deriving DecidableEq, Repr

/-- `excludePatterns.some(pattern => pattern.test(key))` with the patterns
`^origin` (i), `^referer` (i), `^cf-` (no flag), `^x-forw` (i),
`^x-cors-headers` (i); note that the `^cf-` pattern is case-sensitive in
the source. -/
def excludeTest (k : String) : Bool :=
  isPrefixCI "origin" k || isPrefixCI "referer" k || isPrefixCS "cf-" k ||
    isPrefixCI "x-forw" k || isPrefixCI "x-cors-headers" k

/-- The `filteredHeaders` construction: copy the selected fingerprint
profile into a fresh object, assign every non-excluded inbound header
entry, then `Object.assign` the parsed custom headers last. -/
def composeOutbound (profile : JsObj) (inboundEntries : List (String × String))
    (custom : CustomHeadersState) : JsObj :=
  let base := jsAssign [] profile
  let withInbound := inboundEntries.foldl
    (fun m p => if !(excludeTest p.1) then jsSet m p.1 p.2 else m) base
  match custom with
  | .objectOf es => jsAssign withInbound es
  | _ => withInbound

/-! ## Responses and the streaming decision -/

/-- The response returned by the upstream `fetch`. -/
structure UpstreamResponse where
  status : Nat
  statusText : String
  headers : HeaderMap
deriving DecidableEq, Repr

/-- A response body: absent (`null`), literal text, the buffered upstream
bytes (`await response.arrayBuffer()`), or the passed-through upstream
stream (`response.body`). -/
inductive BodyModel where
  | empty
  | text (s : String)
  | buffered
  | streamed
deriving DecidableEq, Repr

/-- A `Response` handed back to the caller. -/
structure ResponseModel where
  status : Nat
  statusText : String
  headers : HeaderMap
  body : BodyModel
deriving DecidableEq, Repr

/-- `shouldStreamResponse(response, request, targetUrl)` from the source:
never for preflights; else on SSE content type, chunked transfer-encoding
(lowercased), an SSE `Accept` header, a `stream=true|1` query parameter of
a truthy parseable target, a content-encoding containing `chunked`
(case-sensitive in the source), an NDJSON content type, or `text/plain`
with chunked transfer-encoding. -/
def shouldStreamResponse (resp : UpstreamResponse) (req : RequestModel)
    (targetUrl : String) : Bool :=
  if req.method == "OPTIONS" then false
  else
    let contentType := (hget resp.headers "content-type").getD ""
    let transferEncoding := (hget resp.headers "transfer-encoding").getD ""
    let acceptHeader := (reqGet req "accept").getD ""
    if strIncludes contentType "text/event-stream" then true
    else if strIncludes (lowerStr transferEncoding) "chunked" then true
    else if strIncludes acceptHeader "text/event-stream" then true
    else if (targetUrl != "") &&
        (match parseUrl targetUrl with
         | some u =>
           (match urlSearchParamFirst u "stream" with
            | some v => v == "true" || v == "1"
            | none => false)
         | none => false) then true
    else
      let contentEncoding := (hget resp.headers "content-encoding").getD ""
      if strIncludes contentEncoding "chunked" then true
      else if strIncludes contentType "application/x-ndjson" then true
      else if strIncludes contentType "text/plain" &&
          strIncludes (lowerStr transferEncoding) "chunked" then true
      else false

/-- The streaming decision exactly as the claim states it: a disjunction of
six conditions, never for preflights.  (Stated from the claim's words, for
comparison with `shouldStreamResponse`.) -/
def shouldStreamClaim (resp : UpstreamResponse) (req : RequestModel)
    (targetUrl : String) : Bool :=
  if req.method == "OPTIONS" then false
  else
    let contentType := (hget resp.headers "content-type").getD ""
    let transferEncoding := (hget resp.headers "transfer-encoding").getD ""
    let acceptHeader := (reqGet req "accept").getD ""
    strIncludes contentType "text/event-stream" ||
    strIncludes (lowerStr transferEncoding) "chunked" ||
    strIncludes acceptHeader "text/event-stream" ||
    ((targetUrl != "") &&
      (match parseUrl targetUrl with
       | some u =>
         (match urlSearchParamFirst u "stream" with
          | some v => v == "true" || v == "1"
          | none => false)
       | none => false)) ||
    strIncludes contentType "application/x-ndjson" ||
    (strIncludes contentType "text/plain" &&
      strIncludes (lowerStr transferEncoding) "chunked")

/-! ## Relay completion -/

/-- JSON string literal serialization (as in `JSON.stringify` of a string). -/
def jsonQuoteList : List Char → List Char
  | [] => []
  | '"' :: rest => '\\' :: '"' :: jsonQuoteList rest
  | '\\' :: rest => '\\' :: '\\' :: jsonQuoteList rest
  | '\n' :: rest => '\\' :: 'n' :: jsonQuoteList rest
  | '\r' :: rest => '\\' :: 'r' :: jsonQuoteList rest
  | '\t' :: rest => '\\' :: 't' :: jsonQuoteList rest
  | c :: rest => c :: jsonQuoteList rest

/-- A JSON string literal. -/
def jsonQuote (s : String) : String := "\"" ++ (⟨jsonQuoteList s.data⟩ : String) ++ "\""

/-- `JSON.stringify(Object.fromEntries(response.headers.entries()))`. -/
def stringifyHeaders (h : HeaderMap) : String :=
  "\x7b" ++ String.intercalate ","
    (h.map (fun p => jsonQuote p.1 ++ ":" ++ jsonQuote p.2)) ++ "\x7d"

/-- The `try { const response = await fetch(...) ... } catch (error)` block
of the admitted main branch: on success, augment the upstream headers with
the CORS headers, `Access-Control-Expose-Headers` and
`cors-received-headers`, and stream or buffer the body; on a transport
error, a synthesized `502 Bad Gateway` with the error message as text body
and fresh CORS headers. -/
def finishRelay (req : RequestModel) (target : String)
    (outcome : Except String UpstreamResponse) : ResponseModel :=
  match outcome with
  | .error msg =>
    { status := 502, statusText := "Bad Gateway",
      headers := setupCORSHeaders req [],
      body := .text ("Error fetching target URL: " ++ msg) }
  | .ok resp =>
    let exposedHeaders := (resp.headers.map (·.1)) ++ ["cors-received-headers"]
    let h1 := setupCORSHeaders req resp.headers
    let h2 := hset h1 "Access-Control-Expose-Headers"
      (String.intercalate "," exposedHeaders)
    let h3 := hset h2 "cors-received-headers" (stringifyHeaders resp.headers)
    let isStreaming := shouldStreamResponse resp req target
    { status := if isPreflightReq req then 200 else resp.status,
      statusText := if isPreflightReq req then "OK" else resp.statusText,
      headers := h3,
      body :=
        if isPreflightReq req then .empty
        else if isStreaming then .streamed
        else .buffered }

/-! ## The handler up to the outbound fetch -/

/-- What the handler decides to do with a request, up to the single
outbound `fetch`: answer a preflight synthetically (admitted or blocked),
issue the outbound request (`.relay` carries the target, the composed
outbound header object and the method; `finishRelay` completes it), serve
the info page (its informational text is out of scope and elided), or
serve the `403` block page (its static HTML hint text is elided). -/
inductive HandlerStep where
  | preflightOk (r : ResponseModel)
  | preflightBlocked (r : ResponseModel)
  | relay (target : String) (outbound : JsObj) (method : String)
  | infoPage (r : ResponseModel)
  | blocked (r : ResponseModel)
deriving DecidableEq, Repr

/-- The `fetch` handler from URL resolution through the branch decision.
`custom` is the state of the `customHeaders` variable (see
`CustomHeadersState`). -/
def handleStep (req : RequestModel) (custom : CustomHeadersState)
    (cfg : Config) : HandlerStep :=
  let targetUrl := resolveTarget req.search
  let originHeader := reqGet req "Origin"
  if isPreflightReq req then
    if admission targetUrl originHeader cfg then
      let h := hset (setupCORSHeaders req []) "Access-Control-Max-Age" "86400"
      .preflightOk { status := 200, statusText := "OK", headers := h, body := .empty }
    else
      .preflightBlocked
        { status := 403, statusText := "Forbidden",
          headers := setupCORSHeaders req [], body := .empty }
  else if admission targetUrl originHeader cfg then
    let t := targetUrl.getD ""
    let referer := if jsTruthyOpt originHeader then originHeader.getD ""
      else "https://www.google.com/"
    let secFetchSite := if jsTruthyOpt originHeader then "cross-site" else "none"
    let fps := browserFingerprints referer secFetchSite
    let profile := fps.getD (fingerprintIndex t) []
    .relay t (composeOutbound profile (headersEntries req.headers) custom) req.method
  else if targetUrl = none then
    .infoPage
      { status := 200, statusText := "", headers := setupCORSHeaders req [],
        body := .text "" }
  else
    .blocked
      { status := 403, statusText := "Forbidden",
        headers := hset (setupCORSHeaders req []) "Content-Type" "text/html",
        body := .text "" }

/-! ## Claim-side comparison definitions -/

/-- The fingerprint hash exactly as the claim describes it: the rolling
recurrence `hash = hash * 31 + charCode` with two's-complement wrap to 32
bits at every step.  (Stated from the claim's words, for comparison with
`jsHashAcc`, whose final value is not re-wrapped.) -/
def claimHash (t : String) : Int :=
  t.data.foldl (fun h c => toInt32 (31 * h + c.toNat)) 0

/-- The fingerprint index the claim describes: absolute value of the fully
wrapped 32-bit hash, reduced modulo 4. -/
def claimIndex (t : String) : Nat := (claimHash t).natAbs % 4

/-! ## Lemmas: association-list updates -/

theorem getAssoc_nil (k : String) : getAssoc [] k = none := rfl

theorem getAssoc_cons (a : String × String) (t : List (String × String)) (k : String) :
    getAssoc (a :: t) k = if a.1 = k then some a.2 else getAssoc t k := by
  by_cases h : a.1 = k <;> simp [getAssoc, List.find?_cons, h]

theorem getAssoc_append (t u : List (String × String)) (k : String) :
    getAssoc (t ++ u) k = (getAssoc t k).or (getAssoc u k) := by
  simp only [getAssoc, List.find?_append]
  cases List.find? (fun p => p.1 == k) t <;> simp

theorem getAssoc_map_set_self (t : List (String × String)) (k v : String) :
    getAssoc (t.map (fun p => if p.1 == k then (k, v) else p)) k =
      if t.any (fun p => p.1 == k) then some v else none := by
  induction t with
  | nil => rfl
  | cons a t ih =>
    rw [List.map_cons, List.any_cons]
    cases hb : a.1 == k
    · have hne : a.1 ≠ k := by simpa using hb
      simp only [Bool.false_or]
      simp [getAssoc_cons, hne]
      simpa using ih
    · simp [getAssoc_cons]

theorem getAssoc_map_set_ne (t : List (String × String)) (k v k' : String)
    (hne : k' ≠ k) :
    getAssoc (t.map (fun p => if p.1 == k then (k, v) else p)) k' = getAssoc t k' := by
  induction t with
  | nil => rfl
  | cons a t ih =>
    rw [List.map_cons]
    cases hb : a.1 == k
    · simp only [getAssoc_cons]
      rw [show (getAssoc (List.map (fun p => if p.1 == k then (k, v) else p) t) k')
            = getAssoc t k' from ih]
      simp
    · have hak : a.1 = k := by simpa using hb
      have h1 : k ≠ k' := fun hh => hne hh.symm
      have h2 : a.1 ≠ k' := fun hh => hne ((hak ▸ hh : k = k')).symm
      simp [getAssoc_cons, h1, h2]
      simpa using ih

theorem getAssoc_eq_none_of_any_false (t : List (String × String)) (k : String)
    (h : t.any (fun p => p.1 == k) = false) : getAssoc t k = none := by
  induction t with
  | nil => rfl
  | cons a t ih =>
    rw [List.any_cons, Bool.or_eq_false_iff] at h
    have h1 : a.1 ≠ k := by simpa using h.1
    rw [getAssoc_cons, if_neg h1, ih h.2]

theorem getAssoc_setAssoc (m : List (String × String)) (k v k' : String) :
    getAssoc (setAssoc m k v) k' = if k' = k then some v else getAssoc m k' := by
  unfold setAssoc
  by_cases hany : m.any (fun p => p.1 == k)
  · rw [if_pos hany]
    by_cases h : k' = k
    · subst h; rw [getAssoc_map_set_self, if_pos hany, if_pos rfl]
    · rw [getAssoc_map_set_ne _ _ _ _ h, if_neg h]
  · have hany' : m.any (fun p => p.1 == k) = false := by
      revert hany; cases m.any (fun p => p.1 == k) <;> simp
    rw [if_neg hany, getAssoc_append]
    by_cases h : k' = k
    · subst h
      rw [getAssoc_eq_none_of_any_false _ _ hany']
      simp [getAssoc_cons]
    · have h2 : ((k, v) : String × String).1 ≠ k' := fun hh => h hh.symm
      rw [getAssoc_cons, if_neg h2, getAssoc_nil, Option.or_none, if_neg h]

theorem hget_hset (h : HeaderMap) (k v k' : String) :
    hget (hset h k v) k' =
      if lowerStr k' = lowerStr k then some v else hget h k' := by
  unfold hget hset
  exact getAssoc_setAssoc h (lowerStr k) v (lowerStr k')

theorem hget_hdelete_ne (h : HeaderMap) (k k' : String)
    (hne : lowerStr k' ≠ lowerStr k) : hget (hdelete h k) k' = hget h k' := by
  unfold hget hdelete
  induction h with
  | nil => rfl
  | cons a t ih =>
    by_cases ha : a.1 = lowerStr k
    · have h2 : a.1 ≠ lowerStr k' := fun hh => hne (hh ▸ ha : lowerStr k' = lowerStr k)
      have h3 : lowerStr k ≠ lowerStr k' := fun hh => hne hh.symm
      simp [List.filter_cons, ha, getAssoc_cons, h2, h3, ih]
    · have hb : (a.1 == lowerStr k) = false := by simpa using ha
      have hfil : List.filter (fun p => !(p.1 == lowerStr k)) (a :: t) =
          a :: List.filter (fun p => !(p.1 == lowerStr k)) t := by
        simp [List.filter_cons, hb]
      rw [hfil, getAssoc_cons, getAssoc_cons, ih]

/-- The value left under a key by an `Object.assign`-style overlay: the
overlay's own last binding when present, else the base object's value. -/
theorem getAssoc_jsAssign (m : JsObj) (src : List (String × String)) (k : String) :
    getAssoc (jsAssign m src) k = (lookupLast src k).or (getAssoc m k) := by
  induction src generalizing m with
  | nil => simp [jsAssign, lookupLast, getAssoc]
  | cons a t ih =>
    have hstep : jsAssign m (a :: t) = jsAssign (jsSet m a.1 a.2) t := rfl
    rw [hstep, ih]
    have hlast : lookupLast (a :: t) k =
        (lookupLast t k).or (if a.1 = k then some a.2 else none) := by
      unfold lookupLast
      rw [List.reverse_cons, getAssoc_append, getAssoc_cons, getAssoc_nil]
    rw [hlast]
    unfold jsSet
    rw [getAssoc_setAssoc]
    by_cases h : k = a.1
    · have h' : a.1 = k := h.symm
      rw [if_pos h, if_pos h']
      cases hl : lookupLast t k <;> simp
    · have h' : a.1 ≠ k := fun hh => h hh.symm
      rw [if_neg h, if_neg h']
      cases hl : lookupLast t k <;> simp

/-- A fold that conditionally assigns equals an overlay of the filtered
list. -/
theorem foldl_ite_jsSet (l : List (String × String)) (c : String × String → Bool)
    (m : JsObj) :
    l.foldl (fun acc p => if c p then jsSet acc p.1 p.2 else acc) m =
      jsAssign m (l.filter c) := by
  induction l generalizing m with
  | nil => rfl
  | cons a t ih =>
    cases hc : c a <;>
      simp [List.filter_cons, hc, jsAssign, List.foldl_cons, ih]

/-- A string is always found as a substring at the end of an append. -/
theorem strIncludes_append_right (a b : String) :
    strIncludes (a ++ b) b = true := by
  unfold strIncludes
  rw [List.any_eq_true]
  refine ⟨b.data, ?_, ?_⟩
  · rw [List.mem_tails, String.data_append]
    exact (List.suffix_append a.data b.data)
  · simp [List.isPrefixOf_iff_prefix]

end CorsRe

namespace CorsRe

/-! ## Lemmas: ASCII case folding -/

theorem toNat_ofNat_valid {n : Nat} (h : n.isValidChar) : (Char.ofNat n).toNat = n := by
  unfold Char.ofNat
  rw [dif_pos h]
  unfold Char.ofNatAux Char.toNat
  simp [UInt32.toNat]

theorem lowerChar_spec (c : Char) :
    ((65 <= c.toNat && c.toNat <= 90) = false ∧ lowerChar c = c) ∨
      ((65 ≤ c.toNat ∧ c.toNat ≤ 90) ∧ (lowerChar c).toNat = c.toNat + 32) := by
  unfold lowerChar
  cases h : (65 <= c.toNat && c.toNat <= 90)
  · left
    exact ⟨rfl, by rw [if_neg (by simp [h])]⟩
  · right
    have h' : 65 ≤ c.toNat ∧ c.toNat ≤ 90 := by simp at h; exact h
    refine ⟨h', ?_⟩
    rw [if_pos rfl]
    exact toNat_ofNat_valid (Or.inl (by omega))

theorem lowerChar_idem (c : Char) : lowerChar (lowerChar c) = lowerChar c := by
  rcases lowerChar_spec c with ⟨_, h⟩ | ⟨hr, h⟩
  · simp only [h]
  · rcases lowerChar_spec (lowerChar c) with ⟨_, h2⟩ | ⟨hr2, _⟩
    · exact h2
    · omega

theorem lowerChar_eq_of_toNat_small {c : Char} {d : Char}
    (hd : d.toNat < 97) (h : lowerChar c = d) : c = d := by
  rcases lowerChar_spec c with ⟨_, h1⟩ | ⟨hr, h1⟩
  · rw [h1] at h; exact h
  · exfalso
    have := congrArg Char.toNat h
    omega

theorem lowerChar_eq_colon {c : Char} (h : lowerChar c = ':') : c = ':' :=
  lowerChar_eq_of_toNat_small (by decide) h

theorem lowerChar_eq_slash {c : Char} (h : lowerChar c = '/') : c = '/' :=
  lowerChar_eq_of_toNat_small (by decide) h

theorem lowerChar_bne_colon (c : Char) : (lowerChar c != ':') = (c != ':') := by
  by_cases h : c = ':'
  · subst h; rfl
  · have h2 : lowerChar c ≠ ':' := fun hh => h (lowerChar_eq_colon hh)
    have e1 : (lowerChar c != ':') = true := bne_iff_ne.mpr h2
    have e2 : (c != ':') = true := bne_iff_ne.mpr h
    rw [e1, e2]

theorem char_le_iff_toNat (a b : Char) : (a ≤ b) ↔ a.toNat ≤ b.toNat := by
  rw [Char.le_def, UInt32.le_def, BitVec.le_def]
  exact Iff.rfl

theorem isUpper_of_range {c : Char} (h1 : 65 ≤ c.toNat) (h2 : c.toNat ≤ 90) :
    c.isUpper = true := by
  unfold Char.isUpper
  have ha : (65 : UInt32) ≤ c.val := by
    rw [UInt32.le_def, BitVec.le_def]; exact h1
  have hz : c.val ≤ (90 : UInt32) := by
    rw [UInt32.le_def, BitVec.le_def]; exact h2
  simp [ha, hz]

theorem isAlpha_of_lower {c : Char} (h : (lowerChar c).isAlpha = true) :
    c.isAlpha = true := by
  rcases lowerChar_spec c with ⟨_, h1⟩ | ⟨⟨hr1, hr2⟩, _⟩
  · rw [h1] at h; exact h
  · unfold Char.isAlpha
    rw [isUpper_of_range hr1 hr2]
    rfl

theorem isSchemeChar_of_lower {c : Char} (h : isSchemeChar (lowerChar c) = true) :
    isSchemeChar c = true := by
  rcases lowerChar_spec c with ⟨_, h1⟩ | ⟨⟨hr1, hr2⟩, _⟩
  · rw [h1] at h; exact h
  · unfold isSchemeChar Char.isAlphanum Char.isAlpha
    rw [isUpper_of_range hr1 hr2]
    rfl

theorem lowerStr_lowerStr (s : String) : lowerStr (lowerStr s) = lowerStr s := by
  unfold lowerStr
  simp [List.map_map, Function.comp_def, lowerChar_idem]

end CorsRe

namespace CorsRe

/-! ## Lemmas: the fingerprint hash -/

theorem toInt32_emod (n : Int) : toInt32 n % 4294967296 = n % 4294967296 := by
  unfold toInt32
  by_cases h : n % 4294967296 < 2147483648
  · rw [if_pos h, Int.emod_emod]
  · rw [if_neg h, Int.emod_sub_cancel, Int.emod_emod]

theorem hashStep_cong (h H : Int) (c : Nat)
    (hc : h % 4294967296 = H % 4294967296) :
    (toInt32 (h * 32) - h + c) % 4294967296 =
      toInt32 (31 * H + c) % 4294967296 := by
  have h1 : toInt32 (h * 32) ≡ h * 32 [ZMOD 4294967296] := toInt32_emod _
  have h2 : (h : Int) ≡ H [ZMOD 4294967296] := hc
  calc toInt32 (h * 32) - h + (c : Int)
      ≡ h * 32 - h + c [ZMOD 4294967296] :=
        (h1.sub (Int.ModEq.refl h)).add (Int.ModEq.refl c)
    _ = 31 * h + c := by ring
    _ ≡ 31 * H + c [ZMOD 4294967296] :=
        ((Int.ModEq.refl 31).mul h2).add (Int.ModEq.refl _)
    _ ≡ toInt32 (31 * H + c) [ZMOD 4294967296] := (toInt32_emod _).symm

theorem hash_fold_cong (l : List Char) : ∀ h H : Int,
    h % 4294967296 = H % 4294967296 →
    (l.foldl (fun h c => toInt32 (h * 32) - h + c.toNat) h) % 4294967296 =
      (l.foldl (fun h c => toInt32 (31 * h + c.toNat)) H) % 4294967296 := by
  induction l with
  | nil => intro h H hc; exact hc
  | cons c t ih =>
    intro h H hc
    exact ih _ _ (hashStep_cong h H c.toNat hc)

/-- C7 (amended): fingerprint selection is deterministic and in range; the
selected index is `Math.abs(v) % 4` for the accumulator `v` of
`(hash << 5) - hash + charCode` in which only the shift wraps to 32 bits
(`jsHashAcc`); that accumulator is congruent modulo `2^32` to the claim's
fully wrapped `hash*31 + charCode` hash, but it is not itself re-wrapped,
so after `Math.abs` and `% 4` the two can disagree. -/
theorem fingerprintSelection (t t' refr sfs : String) :
    (t = t' → fingerprintIndex t = fingerprintIndex t') ∧
    fingerprintIndex t < 4 ∧
    (browserFingerprints refr sfs).length = 4 ∧
    jsHashAcc t % 4294967296 = claimHash t % 4294967296 := by
  refine ⟨fun h => by rw [h], Nat.mod_lt _ (by decide), rfl, ?_⟩
  exact hash_fold_cong t.data 0 0 rfl

/-- Witness for `fingerprintSelection` at a concrete target URL. -/
theorem fingerprintSelectionWitness :
    fingerprintIndex "https://example.com/" = fingerprintIndex "https://example.com/" ∧
    fingerprintIndex "https://example.com/" < 4 := by
  have h := fingerprintSelection "https://example.com/" "https://example.com/"
    "https://www.google.com/" "none"
  exact ⟨h.1 rfl, h.2.1⟩

set_option maxRecDepth 8192 in
/-- C7 counterexample: at the target URL `https://example.com/` the code's
accumulator is `2438468897` (outside the signed 32-bit range; index
`|2438468897| % 4 = 1`) while the claim's fully wrapped hash is
`-1856498399` (index `|-1856498399| % 4 = 3`), so the selected index is not
the one the claim computes. -/
theorem fingerprintClaimCounterexample :
    fingerprintIndex "https://example.com/" = 1 ∧
    claimIndex "https://example.com/" = 3 ∧
    jsHashAcc "https://example.com/" = 2438468897 ∧
    claimHash "https://example.com/" = -1856498399 ∧
    fingerprintIndex "https://example.com/" ≠ claimIndex "https://example.com/" := by
  refine ⟨rfl, rfl, rfl, rfl, by decide⟩

end CorsRe

namespace CorsRe

/-- C9 (amended): the progressive decoder never fails and its result is:
the single decode when it succeeds and leaves no `%`; the double decode
when both succeed; when the second decode fails, the single-decode level if
the raw string matches `^https?%3A%2F%2F` or `^https?://`
(case-insensitively), else the raw string; and the raw string when the
first decode already fails. -/
theorem progressiveDecodeCharacterization (ss : String) :
    progressiveDecode ss =
      (match decodeURIComponentM ss with
       | none => ss
       | some d1 =>
         if d1.data.contains '%' then
           match decodeURIComponentM d1 with
           | some d2 => d2
           | none => if looksUrlish ss then d1 else ss
         else d1) := by
  unfold progressiveDecode
  cases hd : decodeURIComponentM ss with
  | none =>
    by_cases hu : looksUrlish ss = true
    · simp [hu, hd]
    · simp [hu]
  | some d1 =>
    by_cases hp : d1.data.contains '%'
    · cases hd2 : decodeURIComponentM d1 with
      | some d2 => simp [hp, hd2]
      | none =>
        by_cases hu : looksUrlish ss = true <;> simp [hp, hd2, hu, hd]
    · simp [hp]

/-- C9 counterexample: for the legacy query string `x%25zz` the first
decode succeeds (`x%zz`), the second fails, and the resolver keeps the RAW
string `x%25zz` — not the previous decode level `x%zz` the claim mandates —
because `x%25zz` matches neither `^https?%3A%2F%2F` nor `^https?://`. -/
theorem progressiveDecodeClaimCounterexample :
    extractTargetCandidate "?x%25zz" = some "x%25zz" ∧
    decodeURIComponentM "x%25zz" = some "x%zz" ∧
    decodeURIComponentM "x%zz" = none ∧
    progressiveDecode "x%25zz" = "x%25zz" ∧
    ("x%25zz" : String) ≠ "x%zz" := by
  refine ⟨rfl, rfl, rfl, rfl, by decide⟩

theorem bne_empty_eq_decide (t : String) : (t != "") = !decide (t = "") := by
  cases h : decide (t = "")
  · have h2 : t ≠ "" := of_decide_eq_false h
    simp [bne_iff_ne, h2]
  · have h2 : t = "" := of_decide_eq_true h
    simp [h2]

/-- C5 (amended): the streaming decision equals the claim's six-way
disjunction EXTENDED with a seventh trigger the claim omits: a response
`content-encoding` header containing `chunked` (tested case-sensitively on
lines 225–228 of the source) also forces streaming; preflights never
stream. -/
theorem streamingDecision (resp : UpstreamResponse) (req : RequestModel) (t : String) :
    shouldStreamResponse resp req t =
      (shouldStreamClaim resp req t ||
        (!(req.method == "OPTIONS") &&
          strIncludes ((hget resp.headers "content-encoding").getD "") "chunked")) ∧
    (req.method = "OPTIONS" → shouldStreamResponse resp req t = false) := by
  constructor
  · unfold shouldStreamResponse shouldStreamClaim
    cases hm : (req.method == "OPTIONS") with
    | true => simp
    | false =>
      simp only [hm, Bool.false_eq_true, if_false, Bool.not_false, Bool.true_and]
      cases strIncludes ((hget resp.headers "content-type").getD "") "text/event-stream" <;>
        cases strIncludes (lowerStr ((hget resp.headers "transfer-encoding").getD "")) "chunked" <;>
        cases strIncludes ((reqGet req "accept").getD "") "text/event-stream" <;>
        cases strIncludes ((hget resp.headers "content-encoding").getD "") "chunked" <;>
        cases strIncludes ((hget resp.headers "content-type").getD "") "application/x-ndjson" <;>
        cases strIncludes ((hget resp.headers "content-type").getD "") "text/plain" <;>
        simp [bne_empty_eq_decide]
  · intro h
    unfold shouldStreamResponse
    have : (req.method == "OPTIONS") = true := by simp [h]
    simp [this]

/-- Witness for `streamingDecision`'s preflight conjunct at a concrete
request. -/
theorem streamingDecisionWitness :
    shouldStreamResponse ⟨200, "OK", []⟩ ⟨"OPTIONS", "", []⟩ "" = false :=
  (streamingDecision ⟨200, "OK", []⟩ ⟨"OPTIONS", "", []⟩ "").2 rfl

/-- C5 counterexample: a `GET` response with `content-type:
application/json` and `content-encoding: chunked` (no transfer-encoding, no
SSE accept header, no `stream` parameter) IS streamed by the code, but the
claim's six-condition disjunction is false there. -/
theorem streamingClaimCounterexample :
    shouldStreamResponse
        ⟨200, "OK", [("content-type", "application/json"), ("content-encoding", "chunked")]⟩
        ⟨"GET", "", []⟩ "https://example.com/" = true ∧
    shouldStreamClaim
        ⟨200, "OK", [("content-type", "application/json"), ("content-encoding", "chunked")]⟩
        ⟨"GET", "", []⟩ "https://example.com/" = false := by
  refine ⟨rfl, by decide⟩

end CorsRe

namespace CorsRe

/-- C4: the outbound header object read back at any key follows the
three-tier precedence — the custom `x-cors-headers` object's (last) binding
first, then the last non-excluded inbound header entry (inbound names are
lowercased by the `Headers` API, so the exclusion patterns — including the
case-sensitive `^cf-` — act case-insensitively, as the third conjunct
states), then the fingerprint profile; and an unparseable `x-cors-headers`
value is silently skipped, yielding exactly the no-custom-headers result. -/
theorem outboundHeaderComposition (profile : JsObj) (inbound : HeaderMap)
    (es : List (String × String)) (raw : String) (k name : String) :
    jsGet (composeOutbound profile (headersEntries inbound) (.objectOf es)) k =
      ((lookupLast es k).or ((lookupLast ((headersEntries inbound).filter
          (fun p => !(excludeTest p.1))) k).or (lookupLast profile k))) ∧
    composeOutbound profile (headersEntries inbound) (.invalid raw) =
      composeOutbound profile (headersEntries inbound) .absent ∧
    excludeTest (lowerStr name) =
      (isPrefixCI "origin" name || isPrefixCI "referer" name ||
        isPrefixCI "cf-" name || isPrefixCI "x-forw" name ||
        isPrefixCI "x-cors-headers" name) := by
  refine ⟨?_, rfl, ?_⟩
  · simp only [composeOutbound, jsGet]
    rw [foldl_ite_jsSet]
    rw [getAssoc_jsAssign, getAssoc_jsAssign, getAssoc_jsAssign]
    rw [getAssoc_nil, Option.or_none]
  · have hdata : (lowerStr name).data.map lowerChar = name.data.map lowerChar := by
      show (name.data.map lowerChar).map lowerChar = name.data.map lowerChar
      rw [List.map_map]
      exact List.map_congr_left (fun c _ => lowerChar_idem c)
    unfold excludeTest isPrefixCI isPrefixCS
    rw [hdata]
    rfl

/-- C1: the admission gate holds iff the target is non-null, no blacklist
pattern matches the target, and the origin is null or some whitelist
pattern matches it; under the default configuration
`{blacklistUrls: [], whitelistOrigins: [".*"]}` every (non-empty) resolved
target is admitted with every origin. -/
theorem admissionRule (target origin : Option String) (cfg : Config)
    (hne : ∀ s, target = some s → s ≠ "") :
    (admission target origin cfg = true ↔
      ((∃ s, target = some s) ∧
       (∀ s, target = some s → ∀ m ∈ cfg.blacklistUrls, m s = false) ∧
       (origin = none ∨ ∃ o m, origin = some o ∧ m ∈ cfg.whitelistOrigins ∧ m o = true))) ∧
    ((∃ s, target = some s) → admission target origin defaultConfig = true) := by
  constructor
  · cases target with
    | none => simp [admission, jsTruthyOpt]
    | some s =>
      have hs : s ≠ "" := hne s rfl
      cases origin with
      | none =>
        simp [admission, jsTruthyOpt, isListedInWhitelist, hs,
          List.any_eq_true, bne_iff_ne]
      | some o =>
        simp [admission, jsTruthyOpt, isListedInWhitelist, hs,
          List.any_eq_true, bne_iff_ne]
  · rintro ⟨s, rfl⟩
    have hs : s ≠ "" := hne s rfl
    cases origin <;>
      simp [admission, jsTruthyOpt, defaultConfig, isListedInWhitelist,
        dotStarMatcher, hs, bne_iff_ne]

/-- Witness for `admissionRule`: the default configuration admits a
concrete https target with a concrete origin. -/
theorem admissionRuleWitness :
    admission (some "https://example.com/") (some "https://app.test")
      defaultConfig = true := by
  have h := admissionRule (some "https://example.com/") (some "https://app.test")
    defaultConfig (fun s hs => by injection hs with h2; rw [← h2]; decide)
  exact h.2 ⟨"https://example.com/", rfl⟩

end CorsRe

namespace CorsRe

/-! ## Lemmas: reading back the CORS headers -/

theorem hget_preflightExtra (req : RequestModel) (h1 : HeaderMap) (k : String)
    (h1k : lowerStr k ≠ lowerStr "Access-Control-Allow-Methods")
    (h2k : lowerStr k ≠ lowerStr "Access-Control-Allow-Headers")
    (h3k : lowerStr k ≠ lowerStr "X-Content-Type-Options") :
    hget (preflightExtra req h1) k = hget h1 k := by
  simp only [preflightExtra]
  rw [hget_hdelete_ne _ _ _ h3k]
  by_cases hc : jsTruthyOpt (reqGet req "access-control-request-headers") = true
  · rw [if_pos hc, hget_hset, if_neg h2k, hget_hset, if_neg h1k]
  · rw [if_neg hc, hget_hset, if_neg h2k, hget_hset, if_neg h1k]

theorem hget_setup_acao (req : RequestModel) (h0 : HeaderMap) :
    hget (setupCORSHeaders req h0) "Access-Control-Allow-Origin" =
      (if jsTruthyOpt (reqGet req "Origin") then some ((reqGet req "Origin").getD "")
       else some "*") := by
  simp only [setupCORSHeaders]
  have hpe : ∀ h1 : HeaderMap,
      hget (if isPreflightReq req then preflightExtra req h1 else h1)
        "Access-Control-Allow-Origin" = hget h1 "Access-Control-Allow-Origin" := by
    intro h1
    by_cases hp : isPreflightReq req = true
    · rw [if_pos hp, hget_preflightExtra _ _ _ (by decide) (by decide) (by decide)]
    · rw [if_neg hp]
  rw [hpe]
  by_cases ht : jsTruthyOpt (reqGet req "Origin") = true
  · rw [if_pos ht, if_pos ht, hget_hset, if_neg (by decide), hget_hset, if_pos rfl]
  · rw [if_neg ht, if_neg ht, hget_hset, if_pos rfl]

theorem hget_setup_acac (req : RequestModel) (h0 : HeaderMap) :
    hget (setupCORSHeaders req h0) "Access-Control-Allow-Credentials" =
      (if jsTruthyOpt (reqGet req "Origin") then some "true"
       else hget h0 "Access-Control-Allow-Credentials") := by
  simp only [setupCORSHeaders]
  have hpe : ∀ h1 : HeaderMap,
      hget (if isPreflightReq req then preflightExtra req h1 else h1)
        "Access-Control-Allow-Credentials" = hget h1 "Access-Control-Allow-Credentials" := by
    intro h1
    by_cases hp : isPreflightReq req = true
    · rw [if_pos hp, hget_preflightExtra _ _ _ (by decide) (by decide) (by decide)]
    · rw [if_neg hp]
  rw [hpe]
  by_cases ht : jsTruthyOpt (reqGet req "Origin") = true
  · rw [if_pos ht, if_pos ht, hget_hset, if_pos rfl]
  · rw [if_neg ht, if_neg ht, hget_hset, if_neg (by decide)]

/-- C2 (amended): the computed CORS headers carry the exact `Origin` with
`Access-Control-Allow-Credentials: true` whenever the `Origin` header is
present with a NON-EMPTY value — the code tests JavaScript truthiness, so a
present-but-empty `Origin` behaves like an absent one; with no `Origin`
header, or an empty-valued one, the wildcard `*` is used and no credentials
header is written (the credentials slot is left exactly as in the input
header set, hence absent on the fresh header sets the handler responds
with); and every admitted preflight is answered synthetically with status
200, `Access-Control-Max-Age: 86400`, and no outbound relay step. -/
theorem corsHeaderComputation (req : RequestModel) (h0 : HeaderMap)
    (custom : CustomHeadersState) (cfg : Config) :
    (∀ o, reqGet req "Origin" = some o → o ≠ "" →
      hget (setupCORSHeaders req h0) "Access-Control-Allow-Origin" = some o ∧
      hget (setupCORSHeaders req h0) "Access-Control-Allow-Credentials" = some "true") ∧
    (reqGet req "Origin" = none ∨ reqGet req "Origin" = some "" →
      hget (setupCORSHeaders req h0) "Access-Control-Allow-Origin" = some "*" ∧
      hget (setupCORSHeaders req h0) "Access-Control-Allow-Credentials" =
        hget h0 "Access-Control-Allow-Credentials") ∧
    (isPreflightReq req = true →
      admission (resolveTarget req.search) (reqGet req "Origin") cfg = true →
      ∃ r, handleStep req custom cfg = .preflightOk r ∧ r.status = 200 ∧
        hget r.headers "Access-Control-Max-Age" = some "86400" ∧
        (∀ t ob m, handleStep req custom cfg ≠ .relay t ob m)) := by
  refine ⟨?_, ?_, ?_⟩
  · intro o ho hne
    have ht : jsTruthyOpt (reqGet req "Origin") = true := by
      rw [ho]; simpa [jsTruthyOpt, bne_iff_ne] using hne
    constructor
    · rw [hget_setup_acao, if_pos ht, ho]
      rfl
    · rw [hget_setup_acac, if_pos ht]
  · intro ho
    have ht : jsTruthyOpt (reqGet req "Origin") = false := by
      rcases ho with h | h <;> rw [h] <;> rfl
    constructor
    · rw [hget_setup_acao, ht]
      rfl
    · rw [hget_setup_acac, ht]
      rfl
  · intro hp hadm
    have hstep : handleStep req custom cfg = .preflightOk
        { status := 200, statusText := "OK",
          headers := hset (setupCORSHeaders req []) "Access-Control-Max-Age" "86400",
          body := .empty } := by
      simp only [handleStep]
      rw [if_pos hp, if_pos hadm]
    refine ⟨_, hstep, rfl, ?_, ?_⟩
    · show hget (hset (setupCORSHeaders req []) "Access-Control-Max-Age" "86400")
        "Access-Control-Max-Age" = some "86400"
      rw [hget_hset, if_pos rfl]
    · intro t ob m hcon
      rw [hstep] at hcon
      exact HandlerStep.noConfusion hcon

end CorsRe

namespace CorsRe

/-- Witness for `corsHeaderComputation`: a concrete admitted `OPTIONS`
preflight with `Origin: https://app.test` under the default
configuration. -/
theorem corsHeaderComputationWitness :
    hget (setupCORSHeaders ⟨"OPTIONS", "?url=https://example.com/api",
        [("origin", "https://app.test")]⟩ [])
      "Access-Control-Allow-Origin" = some "https://app.test" ∧
    (∃ r, handleStep ⟨"OPTIONS", "?url=https://example.com/api",
        [("origin", "https://app.test")]⟩ .absent defaultConfig = .preflightOk r ∧
      r.status = 200 ∧ hget r.headers "Access-Control-Max-Age" = some "86400" ∧
      (∀ t ob m, handleStep ⟨"OPTIONS", "?url=https://example.com/api",
        [("origin", "https://app.test")]⟩ .absent defaultConfig ≠ .relay t ob m)) := by
  have h := corsHeaderComputation
    ⟨"OPTIONS", "?url=https://example.com/api", [("origin", "https://app.test")]⟩
    [] .absent defaultConfig
  exact ⟨(h.1 "https://app.test" rfl (by decide)).1, h.2.2 rfl (by rfl)⟩

/-- C6 (amended): when the outbound fetch of an admitted (non-preflight)
relay raises a transport error, the recovered response has status 502, a
plain-text body `Error fetching target URL: <message>` containing the error
message, and the full CORS headers: the exact `Origin` with
`Access-Control-Allow-Credentials: true` when the `Origin` header is
present with a NON-EMPTY value, else (absent or present-but-empty `Origin`
— the code tests JavaScript truthiness) the wildcard `*` with no
credentials header; the catch handler is total, so the error never escapes
as an uncaught failure. -/
theorem relayFailureHandling (req : RequestModel) (custom : CustomHeadersState)
    (cfg : Config) (t : String) (ob : JsObj) (m msg : String)
    (_hrel : handleStep req custom cfg = .relay t ob m) :
    (finishRelay req t (.error msg)).status = 502 ∧
    (finishRelay req t (.error msg)).body =
      .text ("Error fetching target URL: " ++ msg) ∧
    strIncludes ("Error fetching target URL: " ++ msg) msg = true ∧
    (∀ o, reqGet req "Origin" = some o → o ≠ "" →
      hget (finishRelay req t (.error msg)).headers
        "Access-Control-Allow-Origin" = some o ∧
      hget (finishRelay req t (.error msg)).headers
        "Access-Control-Allow-Credentials" = some "true") ∧
    (reqGet req "Origin" = none ∨ reqGet req "Origin" = some "" →
      hget (finishRelay req t (.error msg)).headers
        "Access-Control-Allow-Origin" = some "*" ∧
      hget (finishRelay req t (.error msg)).headers
        "Access-Control-Allow-Credentials" = none) := by
  refine ⟨rfl, rfl, strIncludes_append_right _ _, ?_, ?_⟩
  · intro o ho hne
    have ht : jsTruthyOpt (reqGet req "Origin") = true := by
      rw [ho]; simpa [jsTruthyOpt, bne_iff_ne] using hne
    constructor
    · show hget (setupCORSHeaders req []) "Access-Control-Allow-Origin" = some o
      rw [hget_setup_acao, if_pos ht, ho]
      rfl
    · show hget (setupCORSHeaders req []) "Access-Control-Allow-Credentials" = some "true"
      rw [hget_setup_acac, if_pos ht]
  · intro ho
    have ht : jsTruthyOpt (reqGet req "Origin") = false := by
      rcases ho with h | h <;> rw [h] <;> rfl
    constructor
    · show hget (setupCORSHeaders req []) "Access-Control-Allow-Origin" = some "*"
      rw [hget_setup_acao, ht]
      rfl
    · show hget (setupCORSHeaders req []) "Access-Control-Allow-Credentials" = none
      rw [hget_setup_acac, ht]
      rfl

/-- Witness for `relayFailureHandling`: a concrete admitted `GET` relay
whose fetch fails with message `boom`. -/
theorem relayFailureHandlingWitness :
    (finishRelay ⟨"GET", "?url=https://example.com/",
        [("origin", "https://app.test")]⟩ "https://example.com/"
      (.error "boom")).status = 502 ∧
    hget (finishRelay ⟨"GET", "?url=https://example.com/",
        [("origin", "https://app.test")]⟩ "https://example.com/"
      (.error "boom")).headers "Access-Control-Allow-Origin" =
        some "https://app.test" := by
  have h := relayFailureHandling
    ⟨"GET", "?url=https://example.com/", [("origin", "https://app.test")]⟩
    .absent defaultConfig "https://example.com/" _ "GET" "boom" rfl
  exact ⟨h.1, (h.2.2.2.1 "https://app.test" rfl (by decide)).1⟩

end CorsRe

namespace CorsRe

/-! ## Lemmas: URL parsing preserves the scheme -/

theorem takeWhile_bne_colon_map (cs : List Char) :
    (cs.map lowerChar).takeWhile (fun c => c != ':') =
      (cs.takeWhile (fun c => c != ':')).map lowerChar := by
  have hpred : ((fun c => c != ':') ∘ lowerChar) = (fun c => c != ':') :=
    funext lowerChar_bne_colon
  rw [List.takeWhile_map, hpred]

theorem takeWhile_append_colon (P rest : List Char)
    (h : P.all (fun c => c != ':') = true) :
    List.takeWhile (fun c => c != ':') (P ++ ':' :: rest) = P := by
  induction P with
  | nil => simp [List.takeWhile_cons]
  | cons a t ih =>
    rw [List.all_cons, Bool.and_eq_true] at h
    simp only [List.cons_append, List.takeWhile_cons, h.1, if_true]
    rw [ih h.2]

theorem drop_append_succ (P : List Char) (c : Char) (X : List Char) :
    (P ++ c :: X).drop (P.length + 1) = X := by
  have h1 : P ++ c :: X = (P ++ [c]) ++ X := by simp
  have h2 : (P ++ [c]).length = P.length + 1 := by simp
  rw [h1, ← h2, List.drop_left]

theorem validScheme_of_map_lower (l : List Char)
    (h : validScheme (l.map lowerChar) = true) : validScheme l = true := by
  cases l with
  | nil => simp [validScheme] at h
  | cons c rest =>
    simp only [List.map_cons, validScheme, Bool.and_eq_true] at h ⊢
    refine ⟨isAlpha_of_lower h.1, ?_⟩
    have h2 := h.2
    rw [List.all_map, List.all_eq_true] at h2
    rw [List.all_eq_true]
    intro x hx
    exact isSchemeChar_of_lower (h2 x hx)

theorem isPrefixCS_append (p z : String) : isPrefixCS p (p ++ z) = true := by
  unfold isPrefixCS
  rw [List.isPrefixOf_iff_prefix, String.data_append]
  exact List.prefix_append _ _

theorem href_special_eq (sch : String) (ui : Option String) (host port path : String)
    (q f : Option String) :
    (UrlM.special sch ui host port path q f).href =
      (sch ++ "://") ++
        ((match ui with | some u => u ++ "@" | none => "") ++ (host ++
         ((if port = "" then "" else ":" ++ port) ++ ((if path = "" then "/" else path) ++
         ((match q with | some qs => "?" ++ qs | none => "") ++
          (match f with | some fs => "#" ++ fs | none => "")))))) := by
  show (((((((sch ++ "://") ++ _) ++ _) ++ _) ++ _) ++ _) ++ _) = _
  simp only [String.append_assoc]

/-- If the lowercased input splits as `schLits ++ "://" ++ suffix` (with a
colon-free, valid, special scheme), a successful parse yields a URL whose
serialization starts with `⟨schLits⟩ ++ "://"`. -/
theorem parse_prefix_scheme (cs suffix schLits : List Char) (u : UrlM)
    (hm : cs.map lowerChar = schLits ++ ':' :: '/' :: '/' :: suffix)
    (hnocolon : schLits.all (fun c => c != ':') = true)
    (hv : validScheme schLits = true)
    (hcontains : specialSchemes.contains (⟨schLits⟩ : String) = true)
    (hp : parseUrlList cs = some u) :
    isPrefixCS ((⟨schLits⟩ : String) ++ "://") u.href = true := by
  simp only [parseUrlList] at hp
  set sch := cs.takeWhile (fun c => c != ':') with hsch
  have h1 : sch.map lowerChar = schLits := by
    rw [hsch, ← takeWhile_bne_colon_map, hm, takeWhile_append_colon _ _ hnocolon]
  have hlen : sch.length = schLits.length := by
    rw [← List.length_map sch lowerChar, h1]
  have hcs : cs.length = schLits.length + 3 + suffix.length := by
    have hlm := congrArg List.length hm
    simp only [List.length_map, List.length_append, List.length_cons] at hlm
    omega
  have hsuffixlen : ¬ (sch.length = cs.length) := by omega
  rw [if_neg hsuffixlen] at hp
  have hvs : validScheme sch = true :=
    validScheme_of_map_lower sch (h1 ▸ hv)
  simp only [hvs, Bool.not_true, Bool.false_eq_true, if_false] at hp
  rw [h1] at hp
  simp only [hcontains, if_true] at hp
  have h2 : (cs.drop (sch.length + 1)).map lowerChar = '/' :: '/' :: suffix := by
    rw [List.map_drop, hm, hlen, drop_append_succ]
  obtain ⟨e1, r1, hcs1, he1, hm1⟩ := List.map_eq_cons_iff.mp h2
  obtain ⟨e2, r2, hcs2, he2, hm2⟩ := List.map_eq_cons_iff.mp hm1
  have he1' : e1 = '/' := lowerChar_eq_slash he1
  have he2' : e2 = '/' := lowerChar_eq_slash he2
  rw [hcs2, he2'] at hcs1
  rw [he1'] at hcs1
  rw [hcs1] at hp
  have hp' : (parseAuthorityEtc r2).map (fun x =>
      UrlM.special (⟨schLits⟩ : String) x.1 x.2.1 x.2.2.1 x.2.2.2.1
        x.2.2.2.2.1 x.2.2.2.2.2) = some u := hp
  obtain ⟨x, _, hu⟩ := Option.map_eq_some'.mp hp'
  rw [← hu, href_special_eq]
  exact isPrefixCS_append _ _

theorem prefixCI_of_isPrefixCI {p s : String} (h : isPrefixCI p s = true) :
    ∃ t, s.data.map lowerChar = p.data ++ t := by
  unfold isPrefixCI at h
  rw [List.isPrefixOf_iff_prefix] at h
  obtain ⟨t, ht⟩ := h
  exact ⟨t, ht.symm⟩

theorem href_http_of_parse {s : String} {u : UrlM}
    (hs : isPrefixCI "http://" s = true) (hp : parseUrl s = some u) :
    isPrefixCS "http://" u.href = true := by
  obtain ⟨t, hm⟩ := prefixCI_of_isPrefixCI hs
  have hm' : s.data.map lowerChar = ['h','t','t','p'] ++ ':' :: '/' :: '/' :: t := by
    rw [hm]; rfl
  have := parse_prefix_scheme s.data t ['h','t','t','p'] u hm'
    (by decide) (by decide) (by decide) hp
  exact this

theorem href_https_of_parse {s : String} {u : UrlM}
    (hs : isPrefixCI "https://" s = true) (hp : parseUrl s = some u) :
    isPrefixCS "https://" u.href = true := by
  obtain ⟨t, hm⟩ := prefixCI_of_isPrefixCI hs
  have hm' : s.data.map lowerChar = ['h','t','t','p','s'] ++ ':' :: '/' :: '/' :: t := by
    rw [hm]; rfl
  have := parse_prefix_scheme s.data t ['h','t','t','p','s'] u hm'
    (by decide) (by decide) (by decide) hp
  exact this

theorem prefixCI_prepend_https (c : String) :
    isPrefixCI "https://" ("https://" ++ c) = true := by
  unfold isPrefixCI
  rw [String.data_append, List.map_append]
  rw [List.isPrefixOf_iff_prefix]
  have : "https://".data.map lowerChar = "https://".data := by decide
  rw [this]
  exact List.prefix_append _ _

theorem href_scheme_of_parse {s : String} {u : UrlM}
    (hs : startsWithHttpScheme s = true) (hp : parseUrl s = some u) :
    (isPrefixCS "http://" u.href || isPrefixCS "https://" u.href) = true := by
  unfold startsWithHttpScheme at hs
  rw [Bool.or_eq_true] at hs
  rw [Bool.or_eq_true]
  cases hs with
  | inl h => exact Or.inl (href_http_of_parse h hp)
  | inr h => exact Or.inr (href_https_of_parse h hp)

end CorsRe

namespace CorsRe

/-- C3: a candidate without a (case-insensitive) `http://` or `https://`
lead-in is validated only after `https://` is prepended, and every resolved
target is either `null` or a serialized URL with an explicit (lowercase)
`http://` or `https://` scheme. -/
theorem targetNormalization (c search : String) :
    (startsWithHttpScheme c = false →
      normalizeTargetUrl c = (parseUrl ("https://" ++ c)).map UrlM.href) ∧
    (∀ u, resolveTarget search = some u →
      (isPrefixCS "http://" u || isPrefixCS "https://" u) = true) := by
  constructor
  · intro h
    unfold normalizeTargetUrl
    rw [h]
    simp
  · intro u hu
    unfold resolveTarget at hu
    cases hext : extractTargetCandidate search with
    | none => rw [hext] at hu; cases hu
    | some t =>
      rw [hext] at hu
      have hu' : (if t = "" then none else normalizeTargetUrl t) = some u := hu
      clear hu
      by_cases ht : t = ""
      · rw [if_pos ht] at hu'; cases hu'
      · rw [if_neg ht] at hu'
        have hu : (Option.map UrlM.href (parseUrl
            (if startsWithHttpScheme t then t else "https://" ++ t))) = some u := hu'
        cases hsw : startsWithHttpScheme t with
        | true =>
          rw [hsw] at hu
          simp only [if_true] at hu
          obtain ⟨um, hum, hhref⟩ := Option.map_eq_some'.mp hu
          rw [← hhref]
          exact href_scheme_of_parse hsw hum
        | false =>
          rw [hsw] at hu
          simp only [Bool.false_eq_true, if_false] at hu
          obtain ⟨um, hum, hhref⟩ := Option.map_eq_some'.mp hu
          rw [← hhref, Bool.or_eq_true]
          exact Or.inr (href_https_of_parse (prefixCI_prepend_https t) hum)

/-- Witness for `targetNormalization` at the spec's own example: the
schemeless candidate `api.example.com/data` resolves to
`https://api.example.com/data`. -/
theorem targetNormalizationWitness :
    normalizeTargetUrl "api.example.com/data" =
      (parseUrl "https://api.example.com/data").map UrlM.href ∧
    normalizeTargetUrl "api.example.com/data" = some "https://api.example.com/data" ∧
    (isPrefixCS "http://" "https://api.example.com/data" ||
      isPrefixCS "https://" "https://api.example.com/data") = true := by
  have h := targetNormalization "api.example.com/data" "?url=api.example.com/data"
  refine ⟨h.1 rfl, rfl, ?_⟩
  exact h.2 "https://api.example.com/data" rfl

/-- C10 (amended): a candidate whose scheme is not `http`/`https` is NOT
accepted as-is: it fails the `^https?://` test, so `https://` is prepended
before parsing, and the resolved target (when non-null) always starts with
`https://` — the original scheme is not preserved. -/
theorem nonHttpSchemePrepend (c : String) (h : startsWithHttpScheme c = false) :
    normalizeTargetUrl c = (parseUrl ("https://" ++ c)).map UrlM.href ∧
    (normalizeTargetUrl c = none ∨
      ∃ u, normalizeTargetUrl c = some u ∧ isPrefixCS "https://" u = true) := by
  have h1 : normalizeTargetUrl c = (parseUrl ("https://" ++ c)).map UrlM.href := by
    unfold normalizeTargetUrl
    rw [h]
    simp
  refine ⟨h1, ?_⟩
  cases hu : parseUrl ("https://" ++ c) with
  | none => exact Or.inl (by rw [h1, hu]; rfl)
  | some um =>
    refine Or.inr ⟨um.href, by rw [h1, hu]; rfl, ?_⟩
    exact href_https_of_parse (prefixCI_prepend_https c) hu

/-- Witness for `nonHttpSchemePrepend` at the candidate `ftp://host/path`. -/
theorem nonHttpSchemePrependWitness :
    normalizeTargetUrl "ftp://host/path" =
      (parseUrl "https://ftp://host/path").map UrlM.href ∧
    (normalizeTargetUrl "ftp://host/path" = none ∨
      ∃ u, normalizeTargetUrl "ftp://host/path" = some u ∧
        isPrefixCS "https://" u = true) :=
  nonHttpSchemePrepend "ftp://host/path" rfl

/-- C10 counterexample: the candidate `ftp://host/path` is not accepted
as-is — the resolver prepends `https://` (the WHATWG parser then reads host
`ftp` with an empty port), resolving to `https://ftp//host/path`, so the
original `ftp` scheme and structure are NOT preserved. -/
theorem nonHttpSchemeCounterexample :
    resolveTarget "?url=ftp://host/path" = some "https://ftp//host/path" ∧
    normalizeTargetUrl "ftp://host/path" = some "https://ftp//host/path" ∧
    startsWithHttpScheme "ftp://host/path" = false ∧
    (some "https://ftp//host/path" : Option String) ≠ some "ftp://host/path" := by
  refine ⟨rfl, rfl, rfl, by decide⟩

end CorsRe

namespace CorsRe

/-! ## Lemmas: the reconstruction join -/

/-- One reconstruction item: the key, followed by `=value` when the first
value listed under the key is non-empty. -/
def reconItem (pairs : List (String × String)) (k : String) : String :=
  k ++ (match lookupFirst pairs k with
        | some v => if v ≠ "" then "=" ++ v else ""
        | none => "")

theorem append_slash_ne_empty (a b : String) : (a ++ "/") ++ b ≠ "" := by
  intro h
  have h2 := congrArg String.data h
  simp [String.data_append] at h2

theorem foldl_slash_go (items : List String) : ∀ acc : String, acc ≠ "" →
    items.foldl (fun acc i => (if acc = "" then acc else acc ++ "/") ++ i) acc =
      String.intercalate.go acc "/" items := by
  induction items with
  | nil => intro acc _; rfl
  | cons i rest ih =>
    intro acc hacc
    rw [List.foldl_cons, if_neg hacc]
    rw [ih ((acc ++ "/") ++ i) (append_slash_ne_empty acc i)]
    rfl

theorem foldl_slash_join (items : List String) :
    items.foldl (fun acc i => (if acc = "" then acc else acc ++ "/") ++ i) "" =
      String.intercalate "/" (items.dropWhile (fun i => i == "")) := by
  induction items with
  | nil => rfl
  | cons i rest ih =>
    by_cases hi : i = ""
    · subst hi
      rw [List.foldl_cons, if_pos rfl, List.dropWhile_cons_of_pos (by rfl)]
      exact ih
    · rw [List.foldl_cons, if_pos rfl, String.empty_append]
      rw [List.dropWhile_cons_of_neg (by simpa using hi)]
      rw [foldl_slash_go rest i hi]
      rfl

theorem reconstructFromKeys_eq (pairs : List (String × String)) (keys : List String) :
    reconstructFromKeys pairs keys =
      String.intercalate "/"
        ((keys.map (reconItem pairs)).dropWhile (fun i => i == "")) := by
  unfold reconstructFromKeys
  have hstep : (fun (acc k : String) =>
      let acc2 := if acc = "" then acc else acc ++ "/"
      let acc3 := acc2 ++ k
      match lookupFirst pairs k with
      | some v => if v ≠ "" then acc3 ++ "=" ++ v else acc3
      | none => acc3) =
      (fun acc k => (if acc = "" then acc else acc ++ "/") ++ reconItem pairs k) := by
    funext acc k
    simp only [reconItem]
    cases hv : lookupFirst pairs k with
    | none => simp
    | some v =>
      by_cases hvv : v = ""
      · simp [hvv]
      · simp [hvv, String.append_assoc]
  rw [hstep, ← List.foldl_map (reconItem pairs)
    (fun acc i => (if acc = "" then acc else acc ++ "/") ++ i) keys ""]
  exact foldl_slash_join _

end CorsRe

namespace CorsRe

/-- C8 (amended): for a legacy query string `?<ss>` with no truthy `url`
parameter, when more than one parameter key was parsed — or exactly one key
and the raw string has no `=` — the candidate is the per-key items (key,
plus `=value` when the key's first value is non-empty) joined by `/`,
except that items BEFORE the first non-empty item contribute no separator
(the loop only inserts `/` while its accumulator is truthy); the result is
accepted only when it matches `^https?://` (case-insensitively), the
attempt precedes progressive decoding, and on non-acceptance resolution
falls through to the decoder. -/
theorem legacyReconstruction (ss : String) (hne : ss ≠ "")
    (hurl : lookupFirst (parseForm ss) "url" = none ∨
            lookupFirst (parseForm ss) "url" = some "")
    (hcond : (parseForm ss).length > 1 ∨
      ((parseForm ss).length = 1 ∧ ss.data.contains '=' = false)) :
    (startsWithHttpScheme (String.intercalate "/"
        ((((parseForm ss).map (·.1)).map (reconItem (parseForm ss))).dropWhile
          (fun i => i == ""))) = true →
      extractTargetCandidate ("?" ++ ss) = some (String.intercalate "/"
        ((((parseForm ss).map (·.1)).map (reconItem (parseForm ss))).dropWhile
          (fun i => i == "")))) ∧
    (startsWithHttpScheme (String.intercalate "/"
        ((((parseForm ss).map (·.1)).map (reconItem (parseForm ss))).dropWhile
          (fun i => i == ""))) = false →
      extractTargetCandidate ("?" ++ ss) = some (progressiveDecode ss)) := by
  have hstrip : stripQm ("?" ++ ss) = ss := rfl
  have hbody : searchBody ("?" ++ ss) = some ss := rfl
  have hfalsy : jsTruthyOpt (lookupFirst (parseForm ss) "url") = false := by
    rcases hurl with h | h <;> rw [h] <;> rfl
  have hrecon : reconstructFromKeys (parseForm ss) ((parseForm ss).map (·.1)) =
      String.intercalate "/"
        ((((parseForm ss).map (·.1)).map (reconItem (parseForm ss))).dropWhile
          (fun i => i == "")) := reconstructFromKeys_eq _ _
  have hcondb : (decide (((parseForm ss).map (·.1)).length > 1) ||
      (((parseForm ss).map (·.1)).length == 1 && !(ss.data.contains '='))) = true := by
    rw [List.length_map]
    rcases hcond with h | ⟨h1, h2⟩
    · rw [Bool.or_eq_true]
      exact Or.inl (decide_eq_true h)
    · rw [Bool.or_eq_true]
      refine Or.inr ?_
      rw [Bool.and_eq_true]
      exact ⟨by simp [h1], by rw [h2]; rfl⟩
  have hbne : (ss != "") = true := bne_iff_ne.mpr hne
  have hred : extractTargetCandidate ("?" ++ ss) =
      (if jsTruthyOpt (lookupFirst (parseForm ss) "url") = true
       then lookupFirst (parseForm ss) "url"
       else
         if (ss != "") = true then
           (if ((decide (((parseForm ss).map (·.1)).length > 1) ||
                 (((parseForm ss).map (·.1)).length == 1 && !(ss.data.contains '='))) &&
                 startsWithHttpScheme (reconstructFromKeys (parseForm ss)
                   ((parseForm ss).map (·.1)))) = true
            then some (reconstructFromKeys (parseForm ss) ((parseForm ss).map (·.1)))
            else some (progressiveDecode ss))
         else lookupFirst (parseForm ss) "url") := rfl
  constructor
  · intro hmatch
    rw [hred, hfalsy]
    simp only [Bool.false_eq_true, if_false]
    rw [hbne, if_pos rfl, hrecon, hmatch, hcondb]
    simp
  · intro hmatch
    rw [hred, hfalsy]
    simp only [Bool.false_eq_true, if_false]
    rw [hbne, if_pos rfl, hrecon, hmatch, Bool.and_false]
    simp

/-- Witness for `legacyReconstruction`: the legacy query
`?https://a&b=c` reconstructs the candidate `https://a/b=c`. -/
theorem legacyReconstructionWitness :
    extractTargetCandidate "?https://a&b=c" = some "https://a/b=c" := by
  have h := legacyReconstruction "https://a&b=c" (by decide)
    (Or.inl rfl) (Or.inl (by decide))
  exact h.1 rfl

/-- C8 counterexample: for the legacy query `?=&https://a` the parsed keys
are `""` and `https://a`; joining the keys with `/` as the claim states
yields `/https://a`, which does not match `^https?://`, so the claim
mandates falling through to progressive decoding (candidate `=&https://a`)
— but the code's loop skips the separator while its accumulator is the
empty string, reconstructs `https://a`, and accepts it. -/
theorem legacyReconstructClaimCounterexample :
    extractTargetCandidate "?=&https://a" = some "https://a" ∧
    (parseForm "=&https://a").map (·.1) = ["", "https://a"] ∧
    String.intercalate "/"
      (((parseForm "=&https://a").map (·.1)).map (reconItem (parseForm "=&https://a"))) =
      "/https://a" ∧
    startsWithHttpScheme "/https://a" = false ∧
    progressiveDecode "=&https://a" = "=&https://a" ∧
    (some "https://a" : Option String) ≠ some "=&https://a" := by
  refine ⟨rfl, rfl, rfl, rfl, rfl, by decide⟩

end CorsRe

namespace CorsRe

/-- C2 counterexample: an `Origin` header present with an EMPTY value is a
reachable request, but the truthiness test `if (origin)` treats it like an
absent header: the computed CORS headers carry
`Access-Control-Allow-Origin: *` — not the exact (empty) origin value — and
no `Access-Control-Allow-Credentials` header, falsifying the claim's
present-Origin branch. -/
theorem corsEmptyOriginCounterexample :
    reqGet ⟨"GET", "", [("origin", "")]⟩ "Origin" = some "" ∧
    hget (setupCORSHeaders ⟨"GET", "", [("origin", "")]⟩ [])
      "Access-Control-Allow-Origin" = some "*" ∧
    hget (setupCORSHeaders ⟨"GET", "", [("origin", "")]⟩ [])
      "Access-Control-Allow-Credentials" = none ∧
    (some "*" : Option String) ≠ some "" := by
  refine ⟨rfl, rfl, rfl, by decide⟩

/-- C6 counterexample: a request with an empty-valued `Origin` header is
admitted as a relay under the default configuration, yet its 502
transport-failure response carries `Access-Control-Allow-Origin: *` and NO
`Access-Control-Allow-Credentials` header, falsifying the claim's
when-Origin-present credentials conjunct on a reachable input. -/
theorem relayEmptyOriginCounterexample :
    reqGet ⟨"GET", "?url=https://example.com/", [("origin", "")]⟩ "Origin" = some "" ∧
    (∃ ob, handleStep ⟨"GET", "?url=https://example.com/", [("origin", "")]⟩
      .absent defaultConfig = .relay "https://example.com/" ob "GET") ∧
    (finishRelay ⟨"GET", "?url=https://example.com/", [("origin", "")]⟩
      "https://example.com/" (.error "boom")).status = 502 ∧
    hget (finishRelay ⟨"GET", "?url=https://example.com/", [("origin", "")]⟩
      "https://example.com/" (.error "boom")).headers
      "Access-Control-Allow-Origin" = some "*" ∧
    hget (finishRelay ⟨"GET", "?url=https://example.com/", [("origin", "")]⟩
      "https://example.com/" (.error "boom")).headers
      "Access-Control-Allow-Credentials" = none := by
  refine ⟨rfl, ⟨_, rfl⟩, rfl, rfl, rfl⟩

end CorsRe
